import Mathlib

/-!
Verification development for the `export` package (path compiler and
path executor for tabular data extraction).

The embedding models the revision of `export.go` whose line numbers the
claims cite: the `step`-based path compiler (`buildSteps`), the path
executor (`access`, `retrieve`), the `Extractor` with its
slice-of-measurements binding (`newSOMExtractor`, `bindSOM`, `Bind`,
`NewExtractor`) and the type classifier (`superType`, `isTime`).

Go's runtime values (`reflect.Value`) are modelled by the inductive
`GoVal`; Go's static types (`reflect.Type`) by the inductive `GoType`.
Method implementations (what `m.Func` denotes and `Call` runs) are
supplied by a `MethodEnv` parameter keyed by the receiver type and the
method name, so that `GoType` itself stays first-order and its equality
test (used by `Extractor.Bind`) stays decidable, exactly as
`reflect.Type` identity comparison is decidable in Go.
-/

namespace Export

/-- Runtime values, modelling `reflect.Value`.  Each constructor fixes the
`superType` class of the value's dynamic Go type: `boolV` carries a value of
boolean kind, `intV` a value of one of the signed integer kinds (the payload
is the `Int()`-widened integer), `uintV` an unsigned-kind value, `floatV` a
float (opaque payload bits), `stringV` a string, `timeV` a `time.Time`
(opaque instant), `ptrV` a pointer (`none` = nil), `structV` any struct
other than `time.Time` (field slots in declaration order), `errV` an
error-interface value (`none` = nil error) and `invalid` the zero
`reflect.Value`. -/
inductive GoVal where
  | boolV (b : Bool)
  | intV (n : Int)
  | uintV (n : Nat)
  | floatV (bits : Nat)
  | stringV (s : String)
  | timeV (t : Int)
  | ptrV (p : Option GoVal)
  | structV (fields : List GoVal)
  | errV (m : Option String)
  | invalid
  deriving Inhabited

mutual
/-- Static Go types, modelling `reflect.Type`.  A struct type carries its
package path and name (for `isTime`), its fields in declaration order and
its method set; `iface b` is an interface type, `b` recording whether it
implements the `error` interface (the source's
`mt.Out(1).Implements(errorInterfaceType)`). -/
inductive GoType where
  | bool
  | int
  | int8
  | int16
  | int32
  | int64
  | uint
  | uint8
  | uint16
  | uint32
  | uint64
  | float32
  | float64
  | string
  | ptr (elem : GoType)
  | slice (elem : GoType)
  | iface (implementsError : Bool)
  | structT (pkgPath : String) (name : String) (fields : FieldList)
      (methods : MethodList)

/-- The fields of a struct type in declaration order (`reflect`'s
`Type.Field(i)` view): each entry is a field name and a field type. -/
inductive FieldList where
  | nil
  | cons (name : String) (typ : GoType) (rest : FieldList)

/-- The method set of a type (`reflect`'s `Type.Method(i)` view): each entry
is a method name, the number of inputs beyond the receiver (so Go's
`mt.NumIn()` is one more than `extraIn`) and the result types. -/
inductive MethodList where
  | nil
  | cons (name : String) (extraIn : Nat) (outs : TypeList) (rest : MethodList)

/-- A list of result types of a method (`mt.Out(0)`, `mt.Out(1)`, ...). -/
inductive TypeList where
  | nil
  | cons (typ : GoType) (rest : TypeList)
end

deriving instance DecidableEq for GoType, FieldList, MethodList, TypeList
deriving instance Inhabited for GoType

/-- The column type enumeration, `type Type uint` in the source (named `Typ`
here because `Type` is reserved in Lean). -/
inductive Typ where
  | NA
  | Bool
  | Int
  | Float
  | String
  | Time
  deriving DecidableEq, Inhabited

/-- `func isTime(x reflect.Type) bool`: the package path is `"time"`, the
kind is `Struct` and the name is `"Time"`.  Only `structT` carries a
package path and a name, and only `structT` has struct kind, so every other
constructor yields `false`. -/
def isTime : GoType → Bool
  | .structT pkgPath name _ _ => pkgPath == "time" && name == "Time"
  | _ => false

/-- `func superType(t reflect.Type) Type` from the cited revision: `Bool`
for boolean kind, `Int` for the five signed integer kinds, `String` for
string kind, `Float` for the two float kinds, `Time` for the `time.Time`
struct, and `NA` for everything else (including all unsigned integer
kinds). -/
def superType : GoType → Typ
  | .bool => .Bool
  | .int => .Int
  | .int8 => .Int
  | .int16 => .Int
  | .int32 => .Int
  | .int64 => .Int
  | .string => .String
  | .float32 => .Float
  | .float64 => .Float
  | .structT pkgPath name fields methods =>
      if isTime (.structT pkgPath name fields methods) then .Time else .NA
  | _ => .NA

/-- `v.IsNil()` for the nilable values reachable by the executor: a nil
pointer or a nil interface.  (`reflect` panics on non-nilable kinds; those
are unreachable through steps produced by `buildSteps` and are mapped to
`false` here.) -/
def GoVal.isNilB : GoVal → Bool
  | .ptrV none => true
  | .errV none => true
  | _ => false

/-- `reflect.Indirect(v)`: the pointee for a non-nil pointer, the zero
`Value` for a nil pointer, and `v` itself for every non-pointer. -/
def GoVal.indirect : GoVal → GoVal
  | .ptrV (some w) => w
  | .ptrV none => .invalid
  | v => v

/-- `v.Field(n)`: the n-th field slot of a struct value.  (`reflect` panics
on non-struct values and out-of-range indices; both are unreachable through
steps produced by `buildSteps` on representation-consistent data and are
mapped to the zero `Value` here.) -/
def GoVal.fieldGet : GoVal → Nat → GoVal
  | .structV fields, n => fields.getD n .invalid
  | _, _ => .invalid

/-- `z.Interface() != nil` for the error slot of a may-fail accessor: an
error-interface value is non-nil exactly when it is not the nil error.
(Values other than `errV` never occur in the error slot of a method
accepted by `buildSteps`; they are mapped to `true`.) -/
def GoVal.interfaceIsNonNil : GoVal → Bool
  | .errV none => false
  | _ => true

/-- `superType(v.Type())` on a runtime value: the choice of `GoVal`
constructor fixes the `superType` class of the value's dynamic type (see
`GoVal`), so the dynamic classification is a function of the value alone.
`boolV` values have boolean kind, `intV` values a signed integer kind,
`floatV` a float kind, `stringV` string kind and `timeV` the `time.Time`
type; unsigned-kind values (`uintV`), pointers, non-time structs,
interfaces and the zero `Value` all have types that `superType` sends to
`NA`. -/
def GoVal.dynSuperType : GoVal → Typ
  | .boolV _ => .Bool
  | .intV _ => .Int
  | .floatV _ => .Float
  | .stringV _ => .String
  | .timeV _ => .Time
  | _ => .NA

/-- The implementation environment standing for what `m.Func` denotes: for
a receiver type and a method name, the function run by
`method.Call([]reflect.Value{v})`, returning the list of result values
(`z[0]`, and `z[1]` for two-result methods). -/
def MethodEnv : Type := GoType → String → GoVal → List GoVal

/-- `type step struct` from the source: one step during the way down the
type hierarchy.  `method` holds the callable for a method step and is
`none` for a field access (the source keeps a zero `reflect.Value` there
and tests it with `method.IsValid()`). -/
structure step where
  name : String
  indir : Nat := 0
  method : Option (GoVal → List GoVal) := none
  field : Nat := 0
  mayFail : Bool := false
  typ : GoType := .int

/-- `func (s step) isMethodCall() bool { return s.method.IsValid() }`. -/
def step.isMethodCall (s : step) : Bool := s.method.isSome

/-- The pointer-following loop shared by both kinds of step in `access`:
`for i := 0; i < s.indir; i++ { if v.IsNil() { return v, error }; v =
reflect.Indirect(v) }`, with the step name in the error message. -/
def followIndir (name : String) : GoVal → Nat → Except String GoVal
  | v, 0 => .ok v
  | v, n + 1 =>
      if v.isNilB then .error ("nil pointer on " ++ name)
      else followIndir name v.indirect n

/-- One iteration of the loop body of `access`: step down into the field or
method, then follow all pointer indirections.  For a method step the
callable is invoked on the current value; if the step may fail and the
error slot `z[1]` is non-nil the walk errors out, otherwise the current
value becomes `z[0]`.  For a field step the current value becomes
`v.Field(s.field)`. -/
def access1 (v : GoVal) (s : step) : Except String GoVal :=
  match s.method with
  | some f =>
      let z := f v
      if s.mayFail && (z.getD 1 .invalid).interfaceIsNonNil then
        .error ("method call failed on " ++ s.name)
      else
        followIndir s.name (z.getD 0 .invalid) s.indir
  | none => followIndir s.name (v.fieldGet s.field) s.indir

/-- `func access(v reflect.Value, steps []step) (reflect.Value, error)`:
drills down in `v` according to the given steps; any nil pointer
dereferencing and any method call resulting in a non-nil error result in
an error being returned.  (The source returns the pre-step value alongside
the error; callers only test the error, which is all the model keeps.) -/
def access : GoVal → List step → Except String GoVal
  | v, [] => .ok v
  | v, s :: rest =>
      match access1 v s with
      | .error e => .error e
      | .ok w => access w rest

/-- The primary-indirection prologue of `retrieve`: `for i := 0; i < indir;
i++ { if v.IsNil() { return nil }; v = reflect.Indirect(v) }`, `none`
standing for the `nil` early return. -/
def derefN : GoVal → Nat → Option GoVal
  | v, 0 => some v
  | v, n + 1 => if v.isNilB then none else derefN v.indirect n

/-- `func retrieve(v reflect.Value, steps []step, indir int) interface{}`:
follows `indir` primary indirections, runs `access`, and converts the
result according to `superType(res.Type())` — nil (here `none`) on a nil
pointer, on an access error and in the `NA` default case.  The five
conversions `res.Bool()`, `res.Int()`, `res.Float()`, `res.String()` and
`res.Interface()` return the carried payload; in the model the payload of
an `intV` is already the `Int()`-widened integer, so each conversion
returns the value itself. -/
def retrieve (v : GoVal) (steps : List step) (indir : Nat) : Option GoVal :=
  match derefN v indir with
  | none => none
  | some v1 =>
      match access v1 steps with
      | .error _ => none
      | .ok res =>
          match res.dynSuperType with
          | .Bool => some res
          | .Int => some res
          | .Float => some res
          | .String => some res
          | .Time => some res
          | .NA => none

/-- The outcome of running a piece of Go code that can return normally,
return an error, or panic.  `err` carries the message of a non-nil `error`
return; `panicked` carries a panic message.  (Where the source returns a
partial result alongside a non-nil error — `buildSteps` returns the steps
built so far, `NewExtractor` a partial `Extractor` — every caller discards
that partial result, so the model keeps the error message only.) -/
inductive GoResult (α : Type) where
  | ok (a : α)
  | err (msg : String)
  | panicked (msg : String)

/-- The field-resolution loop of `buildSteps`: `for f := 0; f <
typ.NumField(); f++ { if typ.Field(f).Name == cur { ... break } }`.
Returns the index and type of the first field with the given name. -/
def FieldList.findWithIdx : FieldList → String → Option (Nat × GoType)
  | .nil, _ => none
  | .cons name typ rest, cur =>
      if name == cur then some (0, typ)
      else (rest.findWithIdx cur).map (fun p => (p.1 + 1, p.2))

/-- `typ.MethodByName(cur)`: the signature of the method with the given
name, as `(extraIn, outs)`. -/
def MethodList.byName : MethodList → String → Option (Nat × TypeList)
  | .nil, _ => none
  | .cons name extraIn outs rest, cur =>
      if name == cur then some (extraIn, outs) else rest.byName cur

/-- `mt.NumOut()`. -/
def TypeList.length : TypeList → Nat
  | .nil => 0
  | .cons _ rest => 1 + rest.length

/-- `mt.Out(i)`, with a default for the out-of-range case (which `reflect`
would panic on; `buildSteps` only reads `Out(0)` and `Out(1)` after
checking `NumOut`). -/
def TypeList.getD : TypeList → Nat → GoType → GoType
  | .nil, _, d => d
  | .cons typ _, 0, _ => typ
  | .cons _ rest, n + 1, d => rest.getD n d

/-- `mt.Out(1).Kind() == reflect.Interface &&
mt.Out(1).Implements(errorInterfaceType)`: in the model an interface type
carries its implements-error bit directly. -/
def isErrorIface : GoType → Bool
  | .iface implementsError => implementsError
  | _ => false

/-- The pointer-stripping loop of `buildSteps` (and of `newSOMExtractor`):
`indir := 0; for typ.Kind() == reflect.Ptr { typ = typ.Elem(); indir++ }`.
Returns the stripped type and the number of indirections. -/
def stripPtr : GoType → GoType × Nat
  | .ptr typ => match stripPtr typ with | (u, n) => (u, n + 1)
  | typ => (typ, 0)

/-- The per-segment loop of `func buildSteps(typ reflect.Type, elem string)
([]step, error)`, running on the list of dot-separated segments.  For each
segment: fields first (`typ.NumField()` panics when the current type is not
a struct, which the `panicked` branch records); then methods, validating
the signature (`mt.NumIn() != 1 || (numOut != 1 && numOut != 2)`), the
final-element classification, and the error-interface shape of a second
result.  (The source's error messages interpolate the type with `%v`/`%T`;
the model keeps the fixed text and the segment name.) -/
def buildStepsFrom (env : MethodEnv) : GoType → List String → GoResult (List step)
  | _, [] => .ok []
  | typ, cur :: rest =>
    let last := rest.isEmpty
    match typ with
    | .structT pkgPath name fields methods =>
      match fields.findWithIdx cur with
      | some (f, ftyp) =>
          match stripPtr ftyp with
          | (styp, indir) =>
            if last && (superType styp == Typ.NA) then
              .err ("export: cannot use field " ++ cur ++ " as final element")
            else
              match buildStepsFrom env styp rest with
              | .err m => .err m
              | .panicked m => .panicked m
              | .ok steps =>
                  .ok ({ name := cur, field := f, indir := indir,
                         typ := styp } :: steps)
      | none =>
          match methods.byName cur with
          | none => .err ("export: no field or method " ++ cur)
          | some (extraIn, outs) =>
              let numIn := 1 + extraIn
              let numOut := outs.length
              if numIn != 1 || (numOut != 1 && numOut != 2) then
                .err ("export: cannot use method " ++ cur)
              else
                let out0 := outs.getD 0 .int
                if last && (superType out0 == Typ.NA) then
                  .err ("export: cannot use methods " ++ cur ++
                        " return as final element")
                else
                  match
                    (if numOut == 2 then
                       (if isErrorIface (outs.getD 1 .int) then
                          GoResult.ok true
                        else
                          GoResult.err ("export: cannot use method " ++ cur))
                     else GoResult.ok false) with
                  | .err m => .err m
                  | .panicked m => .panicked m
                  | .ok mayFail =>
                      match buildStepsFrom env out0 rest with
                      | .err m => .err m
                      | .panicked m => .panicked m
                      | .ok steps =>
                          .ok ({ name := cur,
                                 method :=
                                   some (env (.structT pkgPath name fields
                                                methods) cur),
                                 mayFail := mayFail, typ := out0 } :: steps)
    | _ => .panicked "reflect: NumField of non-struct type"

/-- The worker of `splitDots`: collects the current segment (in reverse)
until a dot or the end of the string. -/
def splitDotsAux : List Char → List Char → List String
  | [], acc => [String.mk acc.reverse]
  | c :: rest, acc =>
      if c = '.' then String.mk acc.reverse :: splitDotsAux rest []
      else splitDotsAux rest (c :: acc)

/-- `strings.Split(elem, ".")`: the segments of `elem` around each dot.
Like Go's `strings.Split` with a one-character separator, the result is
never empty (the empty string yields `[""]`, and empty segments between,
before or after dots are kept). -/
def splitDots (s : String) : List String := splitDotsAux s.data []

/-- `func buildSteps(typ reflect.Type, elem string) ([]step, error)`:
constructs a slice of steps to access the given dotted element in `typ`,
splitting the specification at the dots (`strings.Split(elem, ".")`). -/
def buildSteps (env : MethodEnv) (typ : GoType) (elem : String) :
    GoResult (List step) :=
  buildStepsFrom env typ (splitDots elem)

/-- `type Column struct` from the cited revision: the column name, its
column type (the source field is named `Type`; `Lean` reserves that word,
so the field is `Typ` here), the per-row value function (`nil` before
binding, modelled as the constantly-`none` function, and `none` results
standing for `nil` interface values), the `MayFail` flag and the compiled
access steps. -/
structure Column where
  Name : String
  Typ : Typ
  Value : Nat → Option GoVal
  MayFail : Bool
  access : List step

/-- `type Extractor struct` from the cited revision: the number `N` of
elements in the currently bound data, the columns, the
slice-of-measurements flag `som`, the number `indir` of primary
indirections and the Go type `typ` the extractor can be bound to (`none`
models the nil `reflect.Type` of a zero `Extractor`). -/
structure Extractor where
  N : Nat
  Columns : List Column
  som : Bool := false
  indir : Nat := 0
  typ : Option GoType := none

/-- A typed datum handed to `NewExtractor` or `Bind` in an `interface{}`
parameter: its dynamic type (`reflect.TypeOf(data)`) and, when the type is
a slice, its elements in order (`reflect.ValueOf(data).Index(i)`). -/
structure GoData where
  typ : GoType
  elems : List GoVal

/-- `typ.Elem()` for pointer and slice types; `none` records the `reflect`
panic on every other kind. -/
def GoType.elemT : GoType → Option GoType
  | .ptr typ => some typ
  | .slice typ => some typ
  | _ => none

/-- A rough rendering of `reflect.Type.String()`, used only inside the
`NewExtractor` error message. -/
def typeStr : GoType → String
  | .bool => "bool"
  | .int => "int"
  | .int8 => "int8"
  | .int16 => "int16"
  | .int32 => "int32"
  | .int64 => "int64"
  | .uint => "uint"
  | .uint8 => "uint8"
  | .uint16 => "uint16"
  | .uint32 => "uint32"
  | .uint64 => "uint64"
  | .float32 => "float32"
  | .float64 => "float64"
  | .string => "string"
  | .ptr typ => "*" ++ typeStr typ
  | .slice typ => "[]" ++ typeStr typ
  | .iface _ => "interface"
  | .structT pkgPath name _ _ =>
      if pkgPath == "" then name else pkgPath ++ "." ++ name

/-- The per-specification loop of `newSOMExtractor`: for each column
specification, build its steps, take the last step (`steps[len(steps)-1]`
— indexing an empty slice would panic, which the `panicked` branch
records; `buildSteps` never returns an empty ok-list), derive `MayFail`
(`last.mayFail` for a method step, `last.indir > 0` for a field step) and
assemble the `Column` with the last step's name, the `superType` of the
last step's type and a nil value function. -/
def buildColumns (env : MethodEnv) (typ : GoType) :
    List String → GoResult (List Column)
  | [] => .ok []
  | spec :: restSpecs =>
    match buildSteps env typ spec with
    | .err m => .err m
    | .panicked m => .panicked m
    | .ok steps =>
      match steps.getLast? with
      | none => .panicked "runtime error: index out of range"
      | some last =>
        let mayFail := if last.isMethodCall then last.mayFail
                       else decide (0 < last.indir)
        let col : Column :=
          { Name := last.name, Typ := superType last.typ,
            Value := fun _ => none, MayFail := mayFail, access := steps }
        match buildColumns env typ restSpecs with
        | .err m => .err m
        | .panicked m => .panicked m
        | .ok cols => .ok (col :: cols)

/-- `func newSOMExtractor(data interface{}, colSpecs ...string)
(*Extractor, error)`: takes the slice's element type
(`reflect.TypeOf(data).Elem()`), strips the primary pointer indirections
counting them in `indir`, and builds one column per specification.  On a
compilation error the source returns `nil, err`; the model keeps the
error.  The returned extractor has `N = 0`, `som = false` and a nil `typ`,
exactly as the source's `Extractor{indir: indir}` literal. -/
def newSOMExtractor (env : MethodEnv) (data : GoData)
    (colSpecs : List String) : GoResult Extractor :=
  match data.typ.elemT with
  | none => .panicked "reflect: Elem of invalid type"
  | some t0 =>
    match stripPtr t0 with
    | (typ, indir) =>
      match buildColumns env typ colSpecs with
      | .err m => .err m
      | .panicked m => .panicked m
      | .ok cols =>
          .ok { N := 0, Columns := cols, som := false, indir := indir,
                typ := none }

/-- `func (e *Extractor) bindSOM(data interface{})`: sets `N` to the length
of the slice and replaces every column's value function with a closure
that retrieves row `i` of the newly given slice through that column's
compiled steps and the extractor's primary indirection count.  All other
fields of the extractor and of each column are left as they are.
(`v.Index(i)` out of range would panic; the model hands `retrieve` the
zero `Value` there.) -/
def bindSOM (e : Extractor) (data : GoData) : Extractor :=
  { e with
    N := data.elems.length,
    Columns := e.Columns.map fun col =>
      { col with
        Value := fun i =>
          retrieve (data.elems.getD i .invalid) col.access e.indir } }

/-- `func NewExtractor(data interface{}, columnSpecs ...string)
(*Extractor, error)`: switches on the kind of the data's type — a slice is
compiled by `newSOMExtractor`, then marked `som`, given the slice type and
bound; a struct panics with "COS data frame not implemented"; every other
kind returns the "Cannot build Extrator" error (the source returns a fresh
zero `Extractor` alongside it, which callers discard). -/
def NewExtractor (env : MethodEnv) (data : GoData)
    (columnSpecs : List String) : GoResult Extractor :=
  match data.typ with
  | .slice elem =>
      match newSOMExtractor env data columnSpecs with
      | .err m => .err m
      | .panicked m => .panicked m
      | .ok ex =>
          .ok (bindSOM { ex with som := true, typ := some (.slice elem) }
                data)
  | .structT _ _ _ _ => .panicked "COS data frame not implemented"
  | t => .err ("Cannot build Extrator for " ++ typeStr t)

/-- `func (e *Extractor) Bind(data interface{})`: panics when
`reflect.TypeOf(data)` differs from the type recorded at construction;
otherwise rebinds through `bindSOM` for slice-of-measurements extractors
and panics with "COS data frame not implemented" for the rest.  `Bind`
has no error return at all; the model's result is therefore either `ok`
or `panicked`, never `err`. -/
def Bind (e : Extractor) (data : GoData) : GoResult Extractor :=
  if some data.typ = e.typ then
    (if e.som then .ok (bindSOM e data)
     else .panicked "COS data frame not implemented")
  else
    .panicked ("Cannot bind extractor to data of type " ++ typeStr data.typ)

/-- Kind test: is the type a slice? (`typ.Kind() == reflect.Slice`). -/
def GoType.isSliceKind : GoType → Bool
  | .slice _ => true
  | _ => false

/-- Kind test: is the type a struct? (`typ.Kind() == reflect.Struct`). -/
def GoType.isStructKind : GoType → Bool
  | .structT _ _ _ _ => true
  | _ => false

/-- Modelled from the spec's words: a type "exposes a canonical
string-conversion capability" when its method set contains a niladic
`String` method returning a single string (the `fmt.Stringer`
interface).  Used only to state how the code treats such a type. -/
def hasStringMethod : GoType → Bool
  | .structT _ _ _ methods =>
      match methods.byName "String" with
      | some (0, .cons .string .nil) => true
      | _ => false
  | _ => false

/-- The empty implementation environment: every method returns no
results.  Used by concrete instances whose access paths never call a
method. -/
def envEmpty : MethodEnv := fun _ _ _ => []

/-- The `time.Time` struct type (fields and methods irrelevant to the
claims are omitted; `isTime` only looks at the package path, kind and
name). -/
def timeType : GoType := .structT "time" "Time" .nil .nil

/-- The `Other` struct of the package's example test: one field `Start`
of type `time.Time` and one niladic method `Unix` returning an `int64`. -/
def OtherT : GoType :=
  .structT "main" "Other" (.cons "Start" timeType .nil)
    (.cons "Unix" 0 (.cons .int64 .nil) .nil)

/-- The `Some` struct of the package's example test: fields `Flt float64`,
`Str string`, `IntP *int`, `Other Other` and `OtherP *Other`. -/
def SomeT : GoType :=
  .structT "main" "Some"
    (.cons "Flt" .float64 (.cons "Str" .string (.cons "IntP" (.ptr .int)
      (.cons "Other" OtherT (.cons "OtherP" (.ptr OtherT) .nil)))))
    .nil

/-- A two-row `[]Some` slice in the spirit of the example test, the second
row carrying a nil `IntP` and a nil `OtherP`. -/
def someData : GoData :=
  { typ := .slice SomeT,
    elems := [ .structV [.floatV 1, .stringV "Hello", .ptrV (some (.intV 8)),
                 .structV [.timeV 100], .ptrV (some (.structV [.timeV 200]))],
               .structV [.floatV 2, .stringV "Go", .ptrV none,
                 .structV [.timeV 300], .ptrV none] ] }

/-- A one-row `[]Some` slice of the same type as `someData`, used to
exercise rebinding to a different-length collection. -/
def someData1 : GoData :=
  { typ := .slice SomeT,
    elems := [ .structV [.floatV 9, .stringV "Solo", .ptrV none,
                 .structV [.timeV 400], .ptrV none] ] }

/-- A field step reading field 0 through one pointer indirection, as
`buildSteps` would compile the `IntP`-style access `{name: "AP", field: 0,
indir: 1}`. -/
def c1FieldStep : step := { name := "AP", field := 0, indir := 1, typ := .int }

/-- A may-fail method step whose callable always reports a non-nil error in
its second result. -/
def c1MethodStep : step :=
  { name := "M", method := some (fun _ => [.intV 0, .errV (some "boom")]),
    mayFail := true, typ := .int }

/-- The `Stringy` struct: no fields, one niladic method `String` returning
`string` — a `fmt.Stringer` whose `superType` is `NA`. -/
def StringyT : GoType :=
  .structT "main" "Stringy" .nil (.cons "String" 0 (.cons .string .nil) .nil)

/-- A struct with a single field `F` of the `Stringer` type `StringyT`. -/
def StringerHostT : GoType :=
  .structT "main" "T" (.cons "F" StringyT .nil) .nil

/-- A struct whose method set exercises each signature rule of
`buildSteps`: `Extra` takes an argument beyond the receiver, `Zero`
returns no values, `Wrong2` returns two values whose second is not an
error interface, and `Good` returns `(int, error)`. -/
def SigT : GoType :=
  .structT "main" "Sig" .nil
    (.cons "Extra" 1 (.cons .int .nil)
      (.cons "Zero" 0 .nil
        (.cons "Wrong2" 0 (.cons .int (.cons .int .nil))
          (.cons "Good" 0 (.cons .int (.cons (.iface true) .nil)) .nil))))

/-- `Bind` data of a different element type than `someData`. -/
def otherData : GoData := { typ := .slice OtherT, elems := [] }

/-- A struct with one niladic method `P` returning `*int` — a result type
whose `superType` is `NA`. -/
def NaMethodT : GoType :=
  .structT "main" "NaM" .nil (.cons "P" 0 (.cons (.ptr .int) .nil) .nil)

/-- The payload of an `ok` result, with a default for the other outcomes;
used to name the concrete extractors appearing in witnesses. -/
def GoResult.okD {α : Type} (r : GoResult α) (d : α) : α :=
  match r with
  | .ok a => a
  | _ => d

/-- The extractor built over `someData` with columns `Flt` and `IntP`,
used by several witnesses. -/
def fltExtractor : Extractor :=
  (NewExtractor envEmpty someData ["Flt", "IntP"]).okD { N := 0, Columns := [] }

/-- `fltExtractor` rebound to the one-row collection `someData1`. -/
def reboundExtractor : Extractor :=
  (Bind fltExtractor someData1).okD { N := 0, Columns := [] }

/-- The last element of a list of segments, with `""` for the (unreachable)
empty list; used to state which segment a column is named after. -/
def lastSegD : List String → String
  | [] => ""
  | [x] => x
  | _ :: rest => lastSegD rest

/-- The extractor compiled (unbound) over `someData` for the single nested
specification `"Other.Start"`. -/
def otherStartExtractor : Extractor :=
  (newSOMExtractor envEmpty someData ["Other.Start"]).okD
    { N := 0, Columns := [] }

/-- The steps compiled for `Start` on `Other` (a single field step). -/
def startSteps : List step := (buildSteps envEmpty OtherT "Start").okD []

/-- The steps compiled for `Unix` on `Other` (a single call step). -/
def unixSteps : List step := (buildSteps envEmpty OtherT "Unix").okD []

/-- The steps compiled for the `(int, error)` method `Good` on `Sig`. -/
def goodSteps : List step := (buildSteps envEmpty SigT "Good").okD []

/-- Auxiliary: the field branch of the segment loop of `buildSteps`, as an
equation — when the current struct has a field with the segment's name,
the segment compiles to a field step over the pointer-stripped field type
(or to the final-element error when that type classifies to `NA` on the
last segment), and the struct's method set plays no part. -/
theorem buildStepsFrom_field (env : MethodEnv) (pkgPath nm cur : String)
    (fields : FieldList) (methods : MethodList) (rest : List String)
    (f : Nat) (ftyp styp : GoType) (ind : Nat)
    (hf : fields.findWithIdx cur = some (f, ftyp))
    (hsp : stripPtr ftyp = (styp, ind)) :
    buildStepsFrom env (.structT pkgPath nm fields methods) (cur :: rest) =
      if rest.isEmpty && (superType styp == Typ.NA) then
        .err ("export: cannot use field " ++ cur ++ " as final element")
      else
        match buildStepsFrom env styp rest with
        | .err m => .err m
        | .panicked m => .panicked m
        | .ok steps =>
            .ok ({ name := cur, field := f, indir := ind,
                   typ := styp } :: steps) := by
  simp only [buildStepsFrom, hf, hsp]

/-- Auxiliary: the method branch of the segment loop of `buildSteps`, as an
equation — reached only when no field has the segment's name; validates
the signature and compiles to a call step over the first result type. -/
theorem buildStepsFrom_method (env : MethodEnv) (pkgPath nm cur : String)
    (fields : FieldList) (methods : MethodList) (rest : List String)
    (extraIn : Nat) (outs : TypeList)
    (hf : fields.findWithIdx cur = none)
    (hm : methods.byName cur = some (extraIn, outs)) :
    buildStepsFrom env (.structT pkgPath nm fields methods) (cur :: rest) =
      (if (1 + extraIn) != 1
          || (outs.length != 1 && outs.length != 2) then
         GoResult.err ("export: cannot use method " ++ cur)
       else if rest.isEmpty
          && (superType (outs.getD 0 .int) == Typ.NA) then
         GoResult.err ("export: cannot use methods " ++ cur ++
           " return as final element")
       else
         match
           (if outs.length == 2 then
              (if isErrorIface (outs.getD 1 .int) then
                 GoResult.ok true
               else
                 GoResult.err ("export: cannot use method " ++ cur))
            else GoResult.ok false) with
         | .err m => .err m
         | .panicked m => .panicked m
         | .ok mayFail =>
             match buildStepsFrom env (outs.getD 0 .int) rest with
             | .err m => .err m
             | .panicked m => .panicked m
             | .ok steps =>
                 .ok ({ name := cur,
                        method := some (env (.structT pkgPath nm fields
                                               methods) cur),
                        mayFail := mayFail,
                        typ := outs.getD 0 .int } :: steps)) := by
  simp only [buildStepsFrom, hf, hm]

/-- Auxiliary: `access` over a concatenation runs the first list and, only
when it succeeded, continues with the second; an error in the first list is
the result of the whole run. -/
theorem access_append (steps1 steps2 : List step) (v : GoVal) :
    access v (steps1 ++ steps2) =
      match access v steps1 with
      | .ok w => access w steps2
      | .error e => .error e := by
  induction steps1 generalizing v with
  | nil => simp [access]
  | cons s tl ih =>
      simp only [List.cons_append, access]
      cases access1 v s with
      | error e => rfl
      | ok w => exact ih w

/-- C1: if following the primary pointer layers meets a nil reference, or
any step in order meets a nil reference or a failing may-fail accessor,
then the executor (`retrieve`/`access`) returns the absent marker (`none`)
for that row, and the steps after the first failing one are never executed:
the result over `steps1 ++ steps2` is fully determined by the failing
prefix `steps1`, whatever `steps2` contains. -/
theorem c1_first_failure_wins (v v1 : GoVal) (steps1 steps2 : List step)
    (indir : Nat) (e : String) :
    (derefN v indir = none → retrieve v (steps1 ++ steps2) indir = none)
    ∧ (access v steps1 = .error e →
        access v (steps1 ++ steps2) = .error e)
    ∧ (derefN v indir = some v1 → access v1 steps1 = .error e →
        retrieve v (steps1 ++ steps2) indir = none)
    ∧ (∀ (s : step) (rest : List step) (f : GoVal → List GoVal),
        s.method = some f → s.mayFail = true →
        ((f v).getD 1 .invalid).interfaceIsNonNil = true →
        access v (s :: rest) =
          .error ("method call failed on " ++ s.name)) := by
  refine ⟨fun h => ?_, fun h => ?_, fun h1 h2 => ?_, fun s rest f hm hf hz => ?_⟩
  · simp [retrieve, h]
  · rw [access_append, h]
  · simp [retrieve, h1, access_append, h2]
  · simp only [List.getD_eq_getElem?_getD] at hz
    simp [access, access1, hm, hf, hz]

/-- C1 witness: concrete runs hitting each failure shape — a nil primary
pointer, a nil pointer at a field step (with a later step that is never
reached), and a failing may-fail accessor. -/
theorem c1_witness :
    retrieve (GoVal.ptrV none) ([] ++ [c1MethodStep]) 1 = none
    ∧ access (GoVal.structV [GoVal.ptrV none])
        ([c1FieldStep] ++ [c1MethodStep]) = .error "nil pointer on AP"
    ∧ retrieve (GoVal.ptrV (some (GoVal.structV [GoVal.ptrV none])))
        ([c1FieldStep] ++ [c1MethodStep]) 1 = none
    ∧ access (GoVal.structV [GoVal.ptrV none]) (c1MethodStep :: []) =
        .error ("method call failed on " ++ c1MethodStep.name) :=
  ⟨(c1_first_failure_wins (.ptrV none) .invalid [] [c1MethodStep] 1
      "").1 rfl,
   (c1_first_failure_wins (.structV [.ptrV none]) .invalid [c1FieldStep]
      [c1MethodStep] 0 "nil pointer on AP").2.1 rfl,
   (c1_first_failure_wins (.ptrV (some (.structV [.ptrV none])))
      (.structV [.ptrV none]) [c1FieldStep] [c1MethodStep] 1
      "nil pointer on AP").2.2.1 rfl rfl,
   (c1_first_failure_wins (.structV [.ptrV none]) .invalid [] [] 0
      "").2.2.2 c1MethodStep []
      (fun _ => [.intV 0, .errV (some "boom")]) rfl rfl rfl⟩

/-- Auxiliary: the names of the steps produced by a successful compilation
are exactly the segments, in order (each loop iteration appends one step
carrying its segment's name). -/
theorem buildStepsFrom_names (env : MethodEnv) :
    ∀ (segs : List String) (typ : GoType) (steps : List step),
      buildStepsFrom env typ segs = .ok steps →
      steps.map (fun s => s.name) = segs := by
  intro segs
  induction segs with
  | nil =>
      intro typ steps h
      simp only [buildStepsFrom, GoResult.ok.injEq] at h
      rw [← h]
      rfl
  | cons cur rest ih =>
      intro typ steps h
      cases typ <;> simp only [buildStepsFrom] at h <;>
        try exact GoResult.noConfusion h
      rename_i pkgPath nm fields methods
      cases hf : fields.findWithIdx cur with
      | some p =>
          rcases p with ⟨f, ftyp⟩
          simp only [hf] at h
          rcases hsp : stripPtr ftyp with ⟨styp, ind⟩
          simp only [hsp] at h
          split at h
          · exact GoResult.noConfusion h
          · cases hr : buildStepsFrom env styp rest with
            | ok steps2 =>
                rw [hr] at h
                simp only [GoResult.ok.injEq] at h
                rw [← h]
                simpa using ih styp steps2 hr
            | err m => rw [hr] at h; exact GoResult.noConfusion h
            | panicked m => rw [hr] at h; exact GoResult.noConfusion h
      | none =>
          simp only [hf] at h
          cases hm : methods.byName cur with
          | none =>
              simp only [hm] at h
              exact GoResult.noConfusion h
          | some sig =>
              rcases sig with ⟨extraIn, outs⟩
              simp only [hm] at h
              split at h
              · exact GoResult.noConfusion h
              · split at h
                · exact GoResult.noConfusion h
                · split at h
                  · exact GoResult.noConfusion h
                  · exact GoResult.noConfusion h
                  · cases hr : buildStepsFrom env (outs.getD 0 .int) rest with
                    | ok steps2 =>
                        rw [hr] at h
                        simp only [GoResult.ok.injEq] at h
                        rw [← h]
                        simpa using ih _ steps2 hr
                    | err m => rw [hr] at h; exact GoResult.noConfusion h
                    | panicked m =>
                        rw [hr] at h; exact GoResult.noConfusion h

/-- Auxiliary: the last step's name is the last segment's name. -/
theorem lastSegD_names :
    ∀ (steps : List step) (last : step),
      steps.getLast? = some last →
      lastSegD (steps.map (fun s => s.name)) = last.name := by
  intro steps
  induction steps with
  | nil => intro last h; exact Option.noConfusion h
  | cons s tl ih =>
      intro last h
      cases tl with
      | nil =>
          simp only [List.getLast?_singleton, Option.some.injEq] at h
          rw [← h]
          rfl
      | cons t tl2 =>
          rw [List.getLast?_cons_cons] at h
          simpa [lastSegD] using ih last h

/-- Auxiliary: each column produced by the per-specification loop of
`newSOMExtractor` is named after the last segment of its own
specification. -/
theorem buildColumns_names (env : MethodEnv) (typ : GoType) :
    ∀ (specs : List String) (cols : List Column),
      buildColumns env typ specs = .ok cols →
      List.Forall₂
        (fun spec col => Column.Name col = lastSegD (splitDots spec))
        specs cols := by
  intro specs
  induction specs with
  | nil =>
      intro cols h
      simp only [buildColumns, GoResult.ok.injEq] at h
      rw [← h]
      exact List.Forall₂.nil
  | cons spec rest ih =>
      intro cols h
      simp only [buildColumns] at h
      cases hbs : buildSteps env typ spec with
      | err m => rw [hbs] at h; exact GoResult.noConfusion h
      | panicked m => rw [hbs] at h; exact GoResult.noConfusion h
      | ok steps =>
          simp only [hbs] at h
          cases hlast : steps.getLast? with
          | none => simp only [hlast] at h; exact GoResult.noConfusion h
          | some last =>
              simp only [hlast] at h
              cases hrec : buildColumns env typ rest with
              | err m => simp only [hrec] at h; exact GoResult.noConfusion h
              | panicked m =>
                  simp only [hrec] at h; exact GoResult.noConfusion h
              | ok cols2 =>
                  simp only [hrec] at h
                  simp only [GoResult.ok.injEq] at h
                  rw [← h]
                  refine List.Forall₂.cons ?_ (ih cols2 hrec)
                  have hnames := buildStepsFrom_names env (splitDots spec)
                    typ steps hbs
                  rw [← hnames]
                  exact (lastSegD_names steps last hlast).symm

/-- C2 counterexample: for a start type that is not a struct (here `int`),
compilation does not fail with the "no field or method" error — the
underlying `typ.NumField()` reflection call panics before any lookup, so
there is no error return at all. -/
theorem c2_counterexample :
    buildSteps envEmpty GoType.int "X" =
      .panicked "reflect: NumField of non-struct type"
    ∧ ∀ m, buildSteps envEmpty GoType.int "X" ≠ GoResult.err m := by
  constructor
  · rfl
  · intro m h
    have h0 : buildSteps envEmpty GoType.int "X" =
        GoResult.panicked "reflect: NumField of non-struct type" := rfl
    rw [h0] at h
    exact GoResult.noConfusion h

/-- C2 amended: on a struct current type, each segment is resolved by
first looking for a field with that exact name — when one exists the
compiled step is a field step for the first such field and the struct's
method set plays no part in the result; only when no field exists is a
method looked up, and an ok-compiled segment then starts with a call
step; when neither a field nor a method with that name exists,
compilation fails with the "no field or method" error.  (On a non-struct
current type the reflection call `typ.NumField()` panics instead, see the
counterexample.) -/
theorem c2_resolution_order (env : MethodEnv)
    (pkgPath nm spec cur : String) (fields : FieldList)
    (methods methods2 : MethodList) (rest : List String)
    (hsplit : splitDots spec = cur :: rest) :
    (∀ f ftyp, fields.findWithIdx cur = some (f, ftyp) →
        (buildSteps env (.structT pkgPath nm fields methods) spec
          = buildSteps env (.structT pkgPath nm fields methods2) spec)
        ∧ ∀ steps,
            buildSteps env (.structT pkgPath nm fields methods) spec
              = .ok steps →
            ∃ s tl, steps = s :: tl ∧ s.method = none ∧ s.field = f
              ∧ s.name = cur)
    ∧ (fields.findWithIdx cur = none →
        ∀ steps,
          buildSteps env (.structT pkgPath nm fields methods) spec
            = .ok steps →
          ∃ s tl, steps = s :: tl ∧ s.isMethodCall = true ∧ s.name = cur)
    ∧ (fields.findWithIdx cur = none → methods.byName cur = none →
        buildSteps env (.structT pkgPath nm fields methods) spec =
          .err ("export: no field or method " ++ cur)) := by
  have hb : ∀ ms : MethodList,
      buildSteps env (.structT pkgPath nm fields ms) spec =
        buildStepsFrom env (.structT pkgPath nm fields ms) (cur :: rest) :=
    fun ms => by rw [buildSteps, hsplit]
  refine ⟨fun f ftyp hf => ⟨?_, fun steps h => ?_⟩,
    fun hf steps h => ?_, fun hf hm => ?_⟩
  · rcases hsp : stripPtr ftyp with ⟨styp, ind⟩
    rw [hb methods, hb methods2,
      buildStepsFrom_field env pkgPath nm cur fields methods rest f ftyp
        styp ind hf hsp,
      buildStepsFrom_field env pkgPath nm cur fields methods2 rest f ftyp
        styp ind hf hsp]
  · rcases hsp : stripPtr ftyp with ⟨styp, ind⟩
    rw [hb methods,
      buildStepsFrom_field env pkgPath nm cur fields methods rest f ftyp
        styp ind hf hsp] at h
    split at h
    · exact absurd h (by simp)
    · cases hr : buildStepsFrom env styp rest with
      | ok steps2 =>
          rw [hr] at h
          simp only [GoResult.ok.injEq] at h
          exact ⟨_, steps2, h.symm, rfl, rfl, rfl⟩
      | err m => rw [hr] at h; exact GoResult.noConfusion h
      | panicked m => rw [hr] at h; exact GoResult.noConfusion h
  · rw [hb methods] at h
    cases hm : methods.byName cur with
    | none =>
        rw [buildStepsFrom, hf, hm] at h
        exact GoResult.noConfusion h
    | some sig =>
        rcases sig with ⟨extraIn, outs⟩
        rw [buildStepsFrom_method env pkgPath nm cur fields methods rest
          extraIn outs hf hm] at h
        split at h
        · exact GoResult.noConfusion h
        · split at h
          · exact GoResult.noConfusion h
          · split at h
            · exact GoResult.noConfusion h
            · exact GoResult.noConfusion h
            · cases hr : buildStepsFrom env (outs.getD 0 .int) rest with
              | ok steps2 =>
                  rw [hr] at h
                  simp only [GoResult.ok.injEq] at h
                  exact ⟨_, steps2, h.symm, rfl, rfl⟩
              | err m => rw [hr] at h; exact GoResult.noConfusion h
              | panicked m => rw [hr] at h; exact GoResult.noConfusion h
  · rw [hb methods, buildStepsFrom, hf, hm]

/-- C2 witness: on the `Other` struct, segment `Start` resolves to a field
step (index 0) whatever the method set holds, segment `Unix` (no such
field) resolves to a call step, and an unknown name yields the "no field
or method" error. -/
theorem c2_witness :
    (buildSteps envEmpty OtherT "Start" = .ok startSteps
      ∧ ∃ s tl, startSteps = s :: tl ∧ s.method = none ∧ s.field = 0
          ∧ s.name = "Start")
    ∧ (buildSteps envEmpty OtherT "Unix" = .ok unixSteps
      ∧ ∃ s tl, unixSteps = s :: tl ∧ s.isMethodCall = true
          ∧ s.name = "Unix")
    ∧ buildSteps envEmpty OtherT "Nope" =
        .err ("export: no field or method " ++ "Nope") := by
  refine ⟨⟨rfl, ?_⟩, ⟨rfl, ?_⟩, ?_⟩
  · exact ((c2_resolution_order envEmpty "main" "Other" "Start" "Start"
      (.cons "Start" timeType .nil)
      (.cons "Unix" 0 (.cons .int64 .nil) .nil)
      (.cons "Unix" 0 (.cons .int64 .nil) .nil) [] rfl).1 0 timeType
      rfl).2 startSteps rfl
  · exact (c2_resolution_order envEmpty "main" "Other" "Unix" "Unix"
      (.cons "Start" timeType .nil)
      (.cons "Unix" 0 (.cons .int64 .nil) .nil)
      (.cons "Unix" 0 (.cons .int64 .nil) .nil) [] rfl).2.1 rfl
      unixSteps rfl
  · exact (c2_resolution_order envEmpty "main" "Other" "Nope" "Nope"
      (.cons "Start" timeType .nil)
      (.cons "Unix" 0 (.cons .int64 .nil) .nil)
      (.cons "Unix" 0 (.cons .int64 .nil) .nil) [] rfl).2.2 rfl rfl

/-- C3 counterexample: `StringyT` exposes the canonical string-conversion
capability (a niladic `String` method returning `string`), yet compiling a
spec whose final segment resolves to it still fails with the
cannot-use-as-final-element error — the cited code has no string-conversion
fallback and never appends a synthetic call step. -/
theorem c3_counterexample :
    hasStringMethod StringyT = true
    ∧ buildSteps envEmpty StringerHostT "F" =
        .err ("export: cannot use field " ++ "F" ++ " as final element")
    ∧ ∀ steps, buildSteps envEmpty StringerHostT "F" ≠ GoResult.ok steps := by
  refine ⟨rfl, rfl, ?_⟩
  intro steps h
  have h0 : buildSteps envEmpty StringerHostT "F" =
      GoResult.err ("export: cannot use field " ++ "F"
        ++ " as final element") := rfl
  rw [h0] at h
  exact GoResult.noConfusion h

/-- C3 amended: a spec whose final segment resolves (as a field, or as a
method with a valid arity) to a type classifying to `NA` always fails at
compile time with the corresponding cannot-use-as-final-element error,
whether or not that type has a string-conversion method — the failure is
never deferred to run time. -/
theorem c3_na_terminal_fails (env : MethodEnv)
    (pkgPath nm spec cur : String) (fields : FieldList)
    (methods : MethodList) (hsplit : splitDots spec = [cur]) :
    (∀ f ftyp styp ind, fields.findWithIdx cur = some (f, ftyp) →
        stripPtr ftyp = (styp, ind) → superType styp = Typ.NA →
        buildSteps env (.structT pkgPath nm fields methods) spec =
          .err ("export: cannot use field " ++ cur ++ " as final element"))
    ∧ (∀ extraIn outs, fields.findWithIdx cur = none →
        methods.byName cur = some (extraIn, outs) → extraIn = 0 →
        (outs.length = 1 ∨ outs.length = 2) →
        superType (outs.getD 0 .int) = Typ.NA →
        buildSteps env (.structT pkgPath nm fields methods) spec =
          .err ("export: cannot use methods " ++ cur ++
            " return as final element")) := by
  constructor
  · intro f ftyp styp ind hf hsp hNA
    rw [buildSteps, hsplit,
      buildStepsFrom_field env pkgPath nm cur fields methods [] f ftyp
        styp ind hf hsp]
    simp [hNA]
  · intro extraIn outs hf hm hIn hOut hNA
    rw [buildSteps, hsplit,
      buildStepsFrom_method env pkgPath nm cur fields methods []
        extraIn outs hf hm]
    subst hIn
    rcases hOut with hl | hl <;> simp [hl, hNA]

/-- C3 witness: the field-terminal case at the `Stringer` host type and the
method-terminal case at a struct whose method returns `*int`. -/
theorem c3_witness :
    buildSteps envEmpty StringerHostT "F" =
      .err ("export: cannot use field " ++ "F" ++ " as final element")
    ∧ buildSteps envEmpty NaMethodT "P" =
        .err ("export: cannot use methods " ++ "P"
          ++ " return as final element") :=
  ⟨(c3_na_terminal_fails envEmpty "main" "T" "F" "F"
      (.cons "F" StringyT .nil) .nil rfl).1 0 StringyT StringyT 0 rfl rfl
      (by decide),
   (c3_na_terminal_fails envEmpty "main" "NaM" "P" "P" .nil
      (.cons "P" 0 (.cons (.ptr .int) .nil) .nil) rfl).2 0
      (.cons (.ptr .int) .nil) rfl rfl rfl (Or.inl rfl) rfl⟩

/-- C5 counterexample: the default column name for the specification
`"Other.Start"` is `"Start"` — the final segment's name — and not the
dot-joined `"Other.Start"` the claim states (`newSOMExtractor` copies
`last.name` from the last step only). -/
theorem c5_counterexample :
    newSOMExtractor envEmpty someData ["Other.Start"] =
      .ok otherStartExtractor
    ∧ otherStartExtractor.Columns.map (fun c => c.Name) = ["Start"]
    ∧ "Start" ≠ "Other.Start" :=
  ⟨rfl, rfl, by decide⟩

/-- C5 amended: every compiled column's default name is the name of the
final segment of its own specification (so spec `"Other.Start"` yields
column name `"Start"`), and the caller may overwrite the name after
construction without affecting the compiled step list, the column type or
the `MayFail` flag. -/
theorem c5_last_segment_name :
    (∀ (env : MethodEnv) (data : GoData) (specs : List String)
        (e : Extractor),
        newSOMExtractor env data specs = .ok e →
        List.Forall₂
          (fun spec col => Column.Name col = lastSegD (splitDots spec))
          specs e.Columns)
    ∧ (∀ (c : Column) (s : String),
        ({ c with Name := s } : Column).Name = s
        ∧ ({ c with Name := s } : Column).access = c.access
        ∧ ({ c with Name := s } : Column).Typ = c.Typ
        ∧ ({ c with Name := s } : Column).MayFail = c.MayFail) := by
  constructor
  · intro env data specs e h
    rw [newSOMExtractor] at h
    cases helem : data.typ.elemT with
    | none => rw [helem] at h; exact GoResult.noConfusion h
    | some t0 =>
        simp only [helem] at h
        rcases hsp : stripPtr t0 with ⟨typ, ind⟩
        simp only [hsp] at h
        cases hbc : buildColumns env typ specs with
        | err m => simp only [hbc] at h; exact GoResult.noConfusion h
        | panicked m => simp only [hbc] at h; exact GoResult.noConfusion h
        | ok cols =>
            simp only [hbc, GoResult.ok.injEq] at h
            rw [← h]
            exact buildColumns_names env typ specs cols hbc
  · intro c s
    exact ⟨rfl, rfl, rfl, rfl⟩

/-- C5 witness: the amended statement applied to the concrete
`"Other.Start"` compilation. -/
theorem c5_witness :
    List.Forall₂
      (fun spec col => Column.Name col = lastSegD (splitDots spec))
      ["Other.Start"] otherStartExtractor.Columns :=
  c5_last_segment_name.1 envEmpty someData ["Other.Start"]
    otherStartExtractor rfl

/-- C4 counterexample: contrary to the claim, the unsigned fixed-width
integer kinds do not classify to the `Int` kind — `superType` sends every
unsigned kind to `NA`. -/
theorem c4_counterexample :
    superType GoType.uint8 = Typ.NA
    ∧ superType GoType.uint16 = Typ.NA
    ∧ superType GoType.uint32 = Typ.NA
    ∧ superType GoType.uint64 = Typ.NA
    ∧ superType GoType.uint = Typ.NA
    ∧ Typ.NA ≠ Typ.Int := by decide

/-- C4 amended: `superType` is a total function mapping the boolean kind to
`Bool`, the five signed integer kinds to `Int`, the float kinds to `Float`,
the string kind to `String`, the `time.Time` struct to `Time`, and every
other type — unsigned integer kinds, pointers, slices, interfaces and
structs other than `time.Time` — to `NA`. -/
theorem c4_supertype_characterization :
    superType .bool = Typ.Bool
    ∧ (superType .int = Typ.Int ∧ superType .int8 = Typ.Int
        ∧ superType .int16 = Typ.Int ∧ superType .int32 = Typ.Int
        ∧ superType .int64 = Typ.Int)
    ∧ (superType .uint = Typ.NA ∧ superType .uint8 = Typ.NA
        ∧ superType .uint16 = Typ.NA ∧ superType .uint32 = Typ.NA
        ∧ superType .uint64 = Typ.NA)
    ∧ (superType .float32 = Typ.Float ∧ superType .float64 = Typ.Float)
    ∧ superType .string = Typ.String
    ∧ (∀ fs ms, superType (.structT "time" "Time" fs ms) = Typ.Time)
    ∧ (∀ p n fs ms, isTime (.structT p n fs ms) = false →
        superType (.structT p n fs ms) = Typ.NA)
    ∧ (∀ t, superType (.ptr t) = Typ.NA)
    ∧ (∀ t, superType (.slice t) = Typ.NA)
    ∧ (∀ b, superType (.iface b) = Typ.NA) := by
  refine ⟨rfl, ⟨rfl, rfl, rfl, rfl, rfl⟩, ⟨rfl, rfl, rfl, rfl, rfl⟩,
    ⟨rfl, rfl⟩, rfl, fun fs ms => ?_, fun p n fs ms h => ?_,
    fun t => rfl, fun t => rfl, fun b => rfl⟩
  · simp [superType, isTime]
  · simp [superType, h]

/-- C4 witness: the non-time-struct case of the characterization at a
concrete struct (`Some` is not `time.Time`), together with the `time.Time`
case at a concrete field list. -/
theorem c4_witness :
    isTime SomeT = false ∧ superType SomeT = Typ.NA
    ∧ superType timeType = Typ.Time :=
  ⟨by decide,
   c4_supertype_characterization.2.2.2.2.2.2.1 "main" "Some"
     (.cons "Flt" .float64 (.cons "Str" .string (.cons "IntP" (.ptr .int)
       (.cons "Other" OtherT (.cons "OtherP" (.ptr OtherT) .nil)))))
     .nil (by decide),
   c4_supertype_characterization.2.2.2.2.2.1 .nil .nil⟩

/-- C6: for a segment that resolves to a method (no field has its name):
if the method takes any argument beyond the receiver, compilation fails
with the "cannot use method" error; if it returns neither exactly one nor
exactly two values, likewise; if it returns two values whose second does
not conform to the error interface, compilation fails with an error; and
when it returns a `(value, error)` pair, the recorded call step has its
may-fail flag set to `true` and the new current type — the step's `typ` —
is the first return type. -/
theorem c6_method_signature (env : MethodEnv)
    (pkgPath nm spec cur : String) (fields : FieldList)
    (methods : MethodList) (rest : List String) (extraIn : Nat)
    (outs : TypeList)
    (hsplit : splitDots spec = cur :: rest)
    (hf : fields.findWithIdx cur = none)
    (hm : methods.byName cur = some (extraIn, outs)) :
    (extraIn ≠ 0 →
      buildSteps env (.structT pkgPath nm fields methods) spec =
        .err ("export: cannot use method " ++ cur))
    ∧ (outs.length ≠ 1 → outs.length ≠ 2 →
      buildSteps env (.structT pkgPath nm fields methods) spec =
        .err ("export: cannot use method " ++ cur))
    ∧ (∀ t1 t2, outs = .cons t1 (.cons t2 .nil) →
        isErrorIface t2 = false →
        ∃ m, buildSteps env (.structT pkgPath nm fields methods) spec =
          .err m)
    ∧ (∀ t1 t2, outs = .cons t1 (.cons t2 .nil) →
        isErrorIface t2 = true → extraIn = 0 →
        ∀ steps,
          buildSteps env (.structT pkgPath nm fields methods) spec =
            .ok steps →
          ∃ s tl, steps = s :: tl ∧ s.mayFail = true ∧ s.typ = t1
            ∧ s.name = cur ∧ s.isMethodCall = true) := by
  have hB : buildSteps env (.structT pkgPath nm fields methods) spec =
      buildStepsFrom env (.structT pkgPath nm fields methods)
        (cur :: rest) := by rw [buildSteps, hsplit]
  refine ⟨fun hIn => ?_, fun h1 h2 => ?_, fun t1 t2 hout hiface => ?_,
    fun t1 t2 hout hiface hIn steps h => ?_⟩
  · rw [hB, buildStepsFrom_method env pkgPath nm cur fields methods rest
      extraIn outs hf hm]
    have hcond : ((1 + extraIn != 1)
        || (outs.length != 1 && outs.length != 2)) = true := by
      simp
      omega
    rw [if_pos hcond]
  · rw [hB, buildStepsFrom_method env pkgPath nm cur fields methods rest
      extraIn outs hf hm]
    have hcond : ((1 + extraIn != 1)
        || (outs.length != 1 && outs.length != 2)) = true := by
      simp [h1, h2]
    rw [if_pos hcond]
  · subst hout
    rw [hB, buildStepsFrom_method env pkgPath nm cur fields methods rest
      extraIn (.cons t1 (.cons t2 .nil)) hf hm]
    by_cases hIn : extraIn = 0
    · subst hIn
      rw [if_neg (by simp [TypeList.length])]
      by_cases hNA : (rest.isEmpty
          && (superType ((TypeList.cons t1 (.cons t2 .nil)).getD 0 .int)
            == Typ.NA)) = true
      · rw [if_pos hNA]
        exact ⟨_, rfl⟩
      · rw [if_neg hNA]
        simp only [TypeList.length, TypeList.getD, hiface]
        exact ⟨_, rfl⟩
    · rw [if_pos (by simp [TypeList.length]; omega)]
      exact ⟨_, rfl⟩
  · subst hout
    subst hIn
    rw [hB, buildStepsFrom_method env pkgPath nm cur fields methods rest
      0 (.cons t1 (.cons t2 .nil)) hf hm] at h
    rw [if_neg (by simp [TypeList.length])] at h
    split at h
    · exact GoResult.noConfusion h
    · simp [TypeList.length, TypeList.getD, hiface] at h
      cases hr : buildStepsFrom env t1 rest with
      | ok steps2 =>
          rw [hr] at h
          simp only [GoResult.ok.injEq] at h
          exact ⟨_, steps2, h.symm, rfl, rfl, rfl, rfl⟩
      | err m =>
          rw [hr] at h
          exact GoResult.noConfusion h
      | panicked m =>
          rw [hr] at h
          exact GoResult.noConfusion h

/-- C6 witness: on the `Sig` struct, `Extra` (an extra argument) and
`Zero` (no results) fail with the "cannot use method" error, `Wrong2`
(second result not an error interface) fails with an error, and `Good`
(an `(int, error)` method) compiles to a call step with the may-fail flag
set and the `int` result type. -/
theorem c6_witness :
    buildSteps envEmpty SigT "Extra" =
      .err ("export: cannot use method " ++ "Extra")
    ∧ buildSteps envEmpty SigT "Zero" =
        .err ("export: cannot use method " ++ "Zero")
    ∧ (∃ m, buildSteps envEmpty SigT "Wrong2" = .err m)
    ∧ buildSteps envEmpty SigT "Good" = .ok goodSteps
    ∧ ∃ s tl, goodSteps = s :: tl ∧ s.mayFail = true ∧ s.typ = .int
        ∧ s.name = "Good" ∧ s.isMethodCall = true := by
  refine ⟨?_, ?_, ?_, rfl, ?_⟩
  · exact (c6_method_signature envEmpty "main" "Sig" "Extra" "Extra" .nil
      (.cons "Extra" 1 (.cons .int .nil)
        (.cons "Zero" 0 .nil
          (.cons "Wrong2" 0 (.cons .int (.cons .int .nil))
            (.cons "Good" 0 (.cons .int (.cons (.iface true) .nil))
              .nil)))) [] 1 (.cons .int .nil) rfl rfl rfl).1 (by decide)
  · exact (c6_method_signature envEmpty "main" "Sig" "Zero" "Zero" .nil
      (.cons "Extra" 1 (.cons .int .nil)
        (.cons "Zero" 0 .nil
          (.cons "Wrong2" 0 (.cons .int (.cons .int .nil))
            (.cons "Good" 0 (.cons .int (.cons (.iface true) .nil))
              .nil)))) [] 0 .nil rfl rfl rfl).2.1 (by decide) (by decide)
  · exact (c6_method_signature envEmpty "main" "Sig" "Wrong2" "Wrong2" .nil
      (.cons "Extra" 1 (.cons .int .nil)
        (.cons "Zero" 0 .nil
          (.cons "Wrong2" 0 (.cons .int (.cons .int .nil))
            (.cons "Good" 0 (.cons .int (.cons (.iface true) .nil))
              .nil)))) [] 0 (.cons .int (.cons .int .nil)) rfl rfl
      rfl).2.2.1 .int .int rfl rfl
  · exact (c6_method_signature envEmpty "main" "Sig" "Good" "Good" .nil
      (.cons "Extra" 1 (.cons .int .nil)
        (.cons "Zero" 0 .nil
          (.cons "Wrong2" 0 (.cons .int (.cons .int .nil))
            (.cons "Good" 0 (.cons .int (.cons (.iface true) .nil))
              .nil)))) [] 0 (.cons .int (.cons (.iface true) .nil)) rfl rfl
      rfl).2.2.2 .int (.iface true) rfl rfl rfl goodSteps rfl

/-- C7: binding data whose type differs from the type recorded at
construction panics (`GoResult.panicked`), and `Bind` never returns an
error value — its outcome is `ok` or `panicked` for every input. -/
theorem c7_bind_mismatch_panics :
    (∀ (e : Extractor) (data : GoData), some data.typ ≠ e.typ →
        Bind e data =
          .panicked ("Cannot bind extractor to data of type "
            ++ typeStr data.typ))
    ∧ (∀ (e : Extractor) (data : GoData) (m : String),
        Bind e data ≠ .err m) := by
  constructor
  · intro e data h
    simp [Bind, h]
  · intro e data m h
    rw [Bind] at h
    split at h
    · split at h <;> exact GoResult.noConfusion h
    · exact GoResult.noConfusion h

/-- C7 witness: an extractor built by `NewExtractor` over `[]Some`, bound
to data of type `[]Other`, panics. -/
theorem c7_witness :
    NewExtractor envEmpty someData ["Flt", "IntP"] = .ok fltExtractor
    ∧ Bind fltExtractor otherData =
        .panicked ("Cannot bind extractor to data of type "
          ++ typeStr otherData.typ) :=
  ⟨rfl, c7_bind_mismatch_panics.1 fltExtractor otherData (by decide)⟩

/-- C10: `NewExtractor` on data of struct kind panics with "COS data frame
not implemented"; on data of any kind other than slice and struct it
returns the non-nil "Cannot build Extrator" error (and does not panic). -/
theorem c10_newextractor_kinds :
    ∀ (env : MethodEnv) (data : GoData) (specs : List String),
      ((∃ p n fs ms, data.typ = GoType.structT p n fs ms) →
         NewExtractor env data specs =
           .panicked "COS data frame not implemented")
      ∧ (data.typ.isSliceKind = false → data.typ.isStructKind = false →
         NewExtractor env data specs =
           .err ("Cannot build Extrator for " ++ typeStr data.typ)) := by
  intro env data specs
  constructor
  · rintro ⟨p, n, fs, ms, h⟩
    simp [NewExtractor, h]
  · intro h1 h2
    cases hd : data.typ <;>
      simp [NewExtractor, hd] <;>
      simp [hd, GoType.isSliceKind, GoType.isStructKind] at h1 h2

/-- C10 witness: a struct datum panics, an `int` datum errors. -/
theorem c10_witness :
    NewExtractor envEmpty { typ := SomeT, elems := [] } ["Flt"] =
      .panicked "COS data frame not implemented"
    ∧ NewExtractor envEmpty { typ := .int, elems := [] } ["Flt"] =
        .err ("Cannot build Extrator for "
          ++ typeStr (GoData.mk .int []).typ) :=
  ⟨(c10_newextractor_kinds envEmpty { typ := SomeT, elems := [] }
      ["Flt"]).1 ⟨"main", "Some",
        .cons "Flt" .float64 (.cons "Str" .string (.cons "IntP" (.ptr .int)
          (.cons "Other" OtherT (.cons "OtherP" (.ptr OtherT) .nil)))),
        .nil, rfl⟩,
   (c10_newextractor_kinds envEmpty { typ := .int, elems := [] }
      ["Flt"]).2 rfl rfl⟩

/-- C8: after a successful `NewExtractor` the row count `N` is the length
of the bound collection; after every successful `Bind` it is the length of
the newly bound collection, and every column's value function reads the
rows of that new collection (through the column's own compiled steps and
the extractor's primary indirection count), with no reference to any
previously bound data. -/
theorem c8_rowcount_and_rebinding :
    (∀ (env : MethodEnv) (data : GoData) (specs : List String)
        (e : Extractor),
        NewExtractor env data specs = .ok e → e.N = data.elems.length)
    ∧ (∀ (e : Extractor) (data : GoData) (eNew : Extractor),
        Bind e data = .ok eNew →
        eNew.N = data.elems.length
        ∧ ∀ (j : Nat) (c cNew : Column),
            e.Columns[j]? = some c → eNew.Columns[j]? = some cNew →
            ∀ i, cNew.Value i =
              retrieve (data.elems.getD i .invalid) c.access e.indir) := by
  constructor
  · intro env data specs e h
    cases hd : data.typ <;> simp [NewExtractor, hd] at h
    rcases hn : newSOMExtractor env data specs with ex | m | m <;>
      rw [hn] at h <;> simp at h
    rw [← h]
    simp [bindSOM]
  · intro e data eNew h
    rw [Bind] at h
    split at h
    · split at h
      · cases h
        refine ⟨by simp [bindSOM], ?_⟩
        intro j c cNew hc hcNew i
        simp only [bindSOM, List.getElem?_map, hc, Option.map_some] at hcNew
        cases hcNew
        rfl
      · exact GoResult.noConfusion h
    · exact GoResult.noConfusion h

/-- C8 witness: building over the two-row `someData` gives `N = 2`;
rebinding to the one-row `someData1` gives `N = 1`, and the rebound first
column reads `someData1`'s rows through the old compiled steps. -/
theorem c8_witness :
    fltExtractor.N = someData.elems.length
    ∧ Bind fltExtractor someData1 = .ok reboundExtractor
    ∧ reboundExtractor.N = someData1.elems.length
    ∧ ∀ i, ∃ c cNew,
        fltExtractor.Columns[0]? = some c
        ∧ reboundExtractor.Columns[0]? = some cNew
        ∧ cNew.Value i =
            retrieve (someData1.elems.getD i .invalid) c.access
              fltExtractor.indir :=
  ⟨c8_rowcount_and_rebinding.1 envEmpty someData ["Flt", "IntP"]
      fltExtractor rfl,
   rfl,
   (c8_rowcount_and_rebinding.2 fltExtractor someData1 reboundExtractor
      rfl).1,
   fun i => ⟨_, _, rfl, rfl,
     (c8_rowcount_and_rebinding.2 fltExtractor someData1 reboundExtractor
        rfl).2 0 _ _ rfl rfl i⟩⟩

/-- C9: a successful `Bind` changes only the row count and the value
functions — every column keeps its name, its column type, its `MayFail`
flag and its compiled step list, the extractor keeps its `som` flag, its
primary indirection count and its recorded type, and a rebound extractor
can be bound again to any same-typed data (no recompilation is involved:
`Bind` never touches the step lists). -/
theorem c9_bind_frame :
    ∀ (e : Extractor) (data : GoData) (eNew : Extractor),
      Bind e data = .ok eNew →
      eNew.Columns.length = e.Columns.length
      ∧ (∀ (j : Nat) (c cNew : Column),
          e.Columns[j]? = some c → eNew.Columns[j]? = some cNew →
          cNew.Name = c.Name ∧ cNew.Typ = c.Typ
          ∧ cNew.MayFail = c.MayFail ∧ cNew.access = c.access)
      ∧ eNew.som = e.som ∧ eNew.indir = e.indir ∧ eNew.typ = e.typ
      ∧ (∀ data2 : GoData, data2.typ = data.typ →
          ∃ e2, Bind eNew data2 = .ok e2) := by
  intro e data eNew h
  rw [Bind] at h
  split at h
  · rename_i htyp
    split at h
    · rename_i hsom
      cases h
      refine ⟨by simp [bindSOM], ?_, by simp [bindSOM], by simp [bindSOM],
        by simp [bindSOM], ?_⟩
      · intro j c cNew hc hcNew
        simp only [bindSOM, List.getElem?_map, hc, Option.map_some] at hcNew
        cases hcNew
        exact ⟨rfl, rfl, rfl, rfl⟩
      · intro data2 h2
        refine ⟨bindSOM (bindSOM e data) data2, ?_⟩
        rw [Bind]
        rw [if_pos (by simp [bindSOM, h2, htyp]), if_pos (by simp [bindSOM, hsom])]
    · exact GoResult.noConfusion h
  · exact GoResult.noConfusion h

/-- C9 witness: rebinding `fltExtractor` to `someData1` preserves both
columns' names, types, `MayFail` flags and step lists, as well as the
extractor's `som`, `indir` and recorded type, and can be repeated. -/
theorem c9_witness :
    Bind fltExtractor someData1 = .ok reboundExtractor
    ∧ reboundExtractor.Columns.length = fltExtractor.Columns.length
    ∧ (∃ c cNew,
        fltExtractor.Columns[1]? = some c
        ∧ reboundExtractor.Columns[1]? = some cNew
        ∧ cNew.Name = c.Name ∧ cNew.Typ = c.Typ
        ∧ cNew.MayFail = c.MayFail ∧ cNew.access = c.access)
    ∧ reboundExtractor.typ = fltExtractor.typ
    ∧ (∃ e2, Bind reboundExtractor someData = .ok e2) :=
  ⟨rfl,
   (c9_bind_frame fltExtractor someData1 reboundExtractor rfl).1,
   ⟨_, _, rfl, rfl,
     (c9_bind_frame fltExtractor someData1 reboundExtractor rfl).2.1 1 _ _
       rfl rfl⟩,
   (c9_bind_frame fltExtractor someData1 reboundExtractor rfl).2.2.2.2.1,
   (c9_bind_frame fltExtractor someData1 reboundExtractor rfl).2.2.2.2.2
     someData rfl⟩

end Export

